import Mathlib

/-!
Shallow embedding of the `atomfeed` Go package (files `doc.go`, `feed.go`,
`verify.go`): the Atom data model, the entity builders (`NewContent`,
`NewEntryID`, `NewEntry`, ...) and the verification engine (`Feed.Verify`,
`Entry.Verify` and the `check*` helpers), together with theorems settling
the specification's claims against this embedding.

Modelling conventions:
- Go strings and `[]byte` payloads are Lean `String`s (Go byte strings that
  are valid UTF-8); `string(value)` is the identity under this view and
  `base64.StdEncoding.EncodeToString` acts on the UTF-8 bytes.
- Go nil pointers become `Option`; Go zero values are the structure field
  defaults.
- The external parsers the Go code consumes as black boxes (`url.Parse`,
  `mail.ParseAddress`, `time.Parse` with RFC3339 and `Time.IsZero` of the
  parsed value) are abstracted into a `Parsers` oracle record; every
  verification theorem quantifies over it.
- Go error values are replaced by the inductive `Err` (one constructor per
  distinct error production site, carrying the data interpolated into the
  message); `VerificationError.Errors` lists are the plain Lean lists of
  tagged items.
- XML-serialization-only machinery (`XMLName`, `CommonAttributes`, the
  encoder) is outside the embedding; no verified function reads it.
-/

/-- Oracles for the external parsers used by `verify.go`: success of
`url.Parse`, success of `mail.ParseAddress`, success of
`time.Parse(time.RFC3339, ·)`, and `IsZero` of the parsed time. -/
structure Parsers where
  uriOK : String → Bool
  emailOK : String → Bool
  dateParses : String → Bool
  dateIsZero : String → Bool

/-- atom:id (doc.go). -/
structure ID where
  Value : String := ""
  deriving DecidableEq

/-- atom:date (doc.go). -/
structure Date where
  Value : String := ""
  deriving DecidableEq

/-- atom:text construct (doc.go). `Typ` is the Go field `Type`
(a Lean keyword). -/
structure TextConstruct where
  Typ : String := ""
  Value : String := ""
  deriving DecidableEq

/-- atom:person (doc.go). -/
structure Person where
  Name : String := ""
  Email : String := ""
  URI : String := ""
  deriving DecidableEq

/-- atom:category (doc.go). -/
structure Category where
  Term : String := ""
  Scheme : String := ""
  Label : String := ""
  deriving DecidableEq

/-- atom:link (doc.go). `Typ` is the Go field `Type`. -/
structure Link where
  Href : String := ""
  Rel : String := ""
  Typ : String := ""
  HrefLang : String := ""
  Title : String := ""
  Length : String := ""
  deriving DecidableEq

/-- atom:generator (doc.go). -/
structure Generator where
  URI : String := ""
  Version : String := ""
  Value : String := ""
  deriving DecidableEq

/-- atom:icon (doc.go). -/
structure Icon where
  Value : String := ""
  deriving DecidableEq

/-- atom:logo (doc.go). -/
structure Logo where
  Value : String := ""
  deriving DecidableEq

/-- atom:content (doc.go). `Typ` is the Go field `Type`. `Value` is the
plain-text (chardata) slot and `ValueXML` the raw-markup (innerxml) slot
used by `feed.go` and `verify.go`; `base64Encoded` is the unexported flag
set by `NewContent` for binary payloads. -/
structure Content where
  Typ : String := ""
  Source : String := ""
  Value : String := ""
  ValueXML : String := ""
  base64Encoded : Bool := false
  deriving DecidableEq

/-- atom:source (doc.go). -/
structure Source where
  ID : Option ID := none
  Generator : Option Generator := none
  Links : List Link := []
  Updated : Option Date := none
  Title : Option TextConstruct := none
  Subtitle : Option TextConstruct := none
  Icon : Option Icon := none
  Logo : Option Logo := none
  Categories : List Category := []
  Author : Option Person := none
  Contributor : List Person := []
  Copyright : Option TextConstruct := none
  deriving DecidableEq

/-- atom:entry (doc.go). -/
structure Entry where
  ID : ID := {}
  Title : Option TextConstruct := none
  Links : List Link := []
  Published : Option Date := none
  Updated : Option Date := none
  Author : Option Person := none
  Categories : List Category := []
  Copyright : Option TextConstruct := none
  Contributor : List Person := []
  Source : Option Source := none
  Summary : Option Content := none
  Content : Option Content := none
  deriving DecidableEq

/-- atom:feed (doc.go). -/
structure Feed where
  Namespace : String := ""
  ID : ID := {}
  Generator : Option Generator := none
  Links : List Link := []
  Updated : Option Date := none
  Title : Option TextConstruct := none
  Subtitle : Option TextConstruct := none
  Icon : Option Icon := none
  Logo : Option Logo := none
  Categories : List Category := []
  Author : Option Person := none
  Contributor : List Person := []
  Copyright : Option TextConstruct := none
  Entries : List Entry := []
  deriving DecidableEq

/-- A Go `time.Time` as used by the builders: the wall-clock reading of the
instant in the time's own location, plus that location's UTC offset in
seconds (east of UTC positive). Two values denote the same absolute
instant iff their `absSeconds` agree. `Time.Format` renders the
wall-clock fields. -/
structure GoTime where
  year : Nat := 1
  month : Nat := 1
  day : Nat := 1
  hour : Nat := 0
  minute : Nat := 0
  second : Nat := 0
  offsetSeconds : Int := 0
  deriving DecidableEq

/-- Days from 1970-01-01 of a civil date (proleptic Gregorian); the
standard era-based conversion, matching Go's internal calendar
arithmetic. Uses truncating integer division (`Int.div`), under which the
era adjustment below is exact. -/
def daysFromCivil (y : Nat) (m d : Nat) : Int :=
  let yAdj : Int := if m ≤ 2 then (y : Int) - 1 else (y : Int)
  let era : Int := (if 0 ≤ yAdj then yAdj else yAdj - 399).tdiv 400
  let yoe : Int := yAdj - era * 400
  let mp : Nat := (m + 9) % 12
  let doy : Int := (((153 * mp + 2) / 5 + d : Nat) : Int) - 1
  let doe : Int := yoe * 365 + yoe.tdiv 4 - yoe.tdiv 100 + doy
  era * 146097 + doe - 719468

/-- The absolute instant a `GoTime` denotes, in seconds relative to the
Unix epoch: wall-clock seconds minus the zone offset. -/
def absSeconds (t : GoTime) : Int :=
  daysFromCivil t.year t.month t.day * 86400
    + (t.hour : Int) * 3600 + (t.minute : Int) * 60 + (t.second : Int)
    - t.offsetSeconds

/-- The absolute instant of Go's zero time (January 1, year 1,
00:00:00 UTC). -/
def zeroInstant : Int := absSeconds {}

/-- Go `Time.IsZero`: the time denotes the zero instant. -/
def GoTime.IsZero (t : GoTime) : Bool := absSeconds t == zeroInstant

/-- Two-digit zero-padded decimal, as Go layout element `01`/`02`/... -/
def pad2 (n : Nat) : String :=
  if n < 10 then "0" ++ toString n else toString n

/-- Four-digit zero-padded decimal, as Go layout element `2006`. -/
def pad4 (n : Nat) : String :=
  if n < 10 then "000" ++ toString n
  else if n < 100 then "00" ++ toString n
  else if n < 1000 then "0" ++ toString n
  else toString n

/-- Go `t.Format("20060102150405")`: the wall-clock reading of `t` in its
own location, with no separators. -/
def goFormatYMDHMS (t : GoTime) : String :=
  pad4 t.year ++ pad2 t.month ++ pad2 t.day
    ++ pad2 t.hour ++ pad2 t.minute ++ pad2 t.second

/-- Go `t.Format("2006-01-02")`. -/
def goFormatDate (t : GoTime) : String :=
  pad4 t.year ++ "-" ++ pad2 t.month ++ "-" ++ pad2 t.day

/-- Go `t.Format(time.RFC3339)`: wall clock plus numeric zone offset,
`Z` when the offset is zero. -/
def goFormatRFC3339 (t : GoTime) : String :=
  let off := t.offsetSeconds
  let zone :=
    if off = 0 then "Z"
    else
      (if off < 0 then "-" else "+")
        ++ pad2 (off.natAbs / 3600) ++ ":" ++ pad2 (off.natAbs % 3600 / 60)
  goFormatDate t ++ "T" ++ pad2 t.hour ++ ":" ++ pad2 t.minute ++ ":"
    ++ pad2 t.second ++ zone

/-- UTF-8 bytes of one character (the Go `[]byte` view of a string rune). -/
def charBytes (c : Char) : List Nat :=
  let n := c.toNat
  if n < 128 then [n]
  else if n < 2048 then [192 + n / 64, 128 + n % 64]
  else if n < 65536 then [224 + n / 4096, 128 + n / 64 % 64, 128 + n % 64]
  else [240 + n / 262144, 128 + n / 4096 % 64, 128 + n / 64 % 64, 128 + n % 64]

/-- UTF-8 bytes of a string (Go `[]byte(s)`). -/
def utf8Bytes (s : String) : List Nat := s.data.flatMap charBytes

/-- The standard base64 alphabet of RFC 4648 used by
`base64.StdEncoding`. -/
def b64Digit (n : Nat) : Char :=
  "ABCDEFGHIJKLMNOPQRSTUVWXYZabcdefghijklmnopqrstuvwxyz0123456789+/".data.getD n 'A'

/-- `base64.StdEncoding` over a byte list: 3-byte groups to 4 digits, with
`=` padding for a 1- or 2-byte tail. -/
def b64Bytes : List Nat → String
  | [] => ""
  | [b1] =>
    String.mk [b64Digit (b1 / 4), b64Digit (b1 % 4 * 16), '=', '=']
  | [b1, b2] =>
    String.mk [b64Digit (b1 / 4), b64Digit (b1 % 4 * 16 + b2 / 16),
      b64Digit (b2 % 16 * 4), '=']
  | b1 :: b2 :: b3 :: rest =>
    String.mk [b64Digit (b1 / 4), b64Digit (b1 % 4 * 16 + b2 / 16),
      b64Digit (b2 % 16 * 4 + b3 / 64), b64Digit (b3 % 64)] ++ b64Bytes rest

/-- Go `base64.StdEncoding.EncodeToString(value)` for a payload given as a
UTF-8 string. -/
def base64Encode (s : String) : String := b64Bytes (utf8Bytes s)

/-- One character of Go `strings.ToLower`. The Go version lowercases full
Unicode; this one lowercases ASCII, which agrees with Go on every input
for the suffix and prefix tests below, since no character outside ASCII
lowercases to any of the letters appearing in `+xml`, `/xml` or
`text/`. -/
def charToLower (c : Char) : Char :=
  if 65 ≤ c.toNat ∧ c.toNat ≤ 90 then Char.ofNat (c.toNat + 32) else c

/-- Go `strings.ToLower` (see `charToLower`). -/
def goToLower (s : String) : String := String.mk (s.data.map charToLower)

/-- Go `strings.HasPrefix`. -/
def goHasPrefix (s pre : String) : Bool := pre.data.isPrefixOf s.data

/-- Go `strings.HasSuffix`. -/
def goHasSuffix (s suf : String) : Bool := suf.data.isSuffixOf s.data

/-- Go `strings.Contains(s, t)` for a one-character `t`. -/
def goContainsChar (s : String) (c : Char) : Bool := s.data.any (· == c)

/-- The markup-bucket test of `NewContent` (feed.go:91-98): exactly
`xhtml`, one of the five registered XML subtypes of RFC 3023, or a
case-insensitive `+xml` / `/xml` suffix. -/
def isXMLMediaType (t : String) : Bool :=
  t == "xhtml" || t == "text/xml" || t == "application/xml"
    || t == "text/xml-external-parsed-entity"
    || t == "application/xml-external-parsed-entity"
    || t == "application/xml-dtd"
    || goHasSuffix (goToLower t) "+xml" || goHasSuffix (goToLower t) "/xml"

/-- The plain-text-bucket test of `NewContent` (feed.go:100-103): empty,
`text`, `html`, or a case-insensitive `text/` prefix. -/
def isTextualType (t : String) : Bool :=
  t == "" || t == "text" || t == "html" || goHasPrefix (goToLower t) "text/"

/-- `NewContent` (feed.go:86-108). -/
def NewContent (contentType source : String) (value : String) : Option Content :=
  if source = "" ∧ value = "" then none
  else if isXMLMediaType contentType then
    some { Typ := contentType, Source := source, ValueXML := value }
  else if isTextualType contentType then
    some { Typ := contentType, Source := source, Value := value }
  else
    some { Typ := contentType, Source := source, Value := base64Encode value,
           base64Encoded := true }

/-- `NewID` (feed.go:53-55). -/
def NewID (id : String) : ID := { Value := id }

/-- `NewFeedID` (feed.go:65-68). -/
def NewFeedID (authorityName : String) (creationTime : GoTime)
    (specific : String) : ID :=
  { Value := "tag:" ++ authorityName ++ "," ++ goFormatDate creationTime
      ++ ":" ++ specific }

/-- `NewEntryID` (feed.go:78-81): the feed ID value, `.post-`, then the
creation time under Go layout `20060102150405`. -/
def NewEntryID (feedID : ID) (entryCreationTime : GoTime) : ID :=
  { Value := feedID.Value ++ ".post-" ++ goFormatYMDHMS entryCreationTime }

/-- `NewDate` (feed.go:111-116). -/
def NewDate (t : GoTime) : Option Date :=
  if t.IsZero then none else some { Value := goFormatRFC3339 t }

/-- `NewPerson` (feed.go:119-121). -/
def NewPerson (name email uri : String) : Person :=
  { Name := name, Email := email, URI := uri }

/-- `NewCategory` (feed.go:124-126). -/
def NewCategory (category : String) : Category := { Term := category }

/-- `termsToCategories` (feed.go:149-155). -/
def termsToCategories (categories : List String) : List Category :=
  categories.map (fun c => NewCategory c)

/-- `NewEntry` (feed.go:128-147). -/
def NewEntry (id : ID) (title permalink : String) (author : Option Person)
    (updated published : GoTime) (categories : List String)
    (summary content : String) : Entry :=
  { ID := id
    Title := some { Value := title }
    Links := [{ Rel := "alternate", Typ := "text/html", Href := permalink }]
    Published := NewDate published
    Updated := NewDate updated
    Author := author
    Categories := termsToCategories categories
    Summary := NewContent "html" "" summary
    Content := NewContent "html" "" content }

/-- `NewFeed` (feed.go:21-49). -/
def NewFeed (id : ID) (author : Option Person)
    (title subtitle baseURL feedURL : String) (updated : GoTime)
    (entries : List Entry) : Feed :=
  { Namespace := "http://www.w3.org/2005/Atom"
    ID := id
    Title := some { Value := title }
    Subtitle := some { Value := subtitle }
    Author := author
    Links := [{ Rel := "alternate", Typ := "text/html", Href := baseURL },
              { Rel := "self", Typ := "application/atom+xml", Href := feedURL }]
    Updated := NewDate updated
    Entries := entries
    Generator := some { URI := "https://github.com/denisbrodbeck/atomfeed",
                        Version := "1.0", Value := "atomfeed package" } }

/-- One error production site of `verify.go`, carrying the data that the Go
code interpolates into the corresponding message. -/
inductive Err where
  | idEmpty
  | badURI (uri : String)
  | badEmail (email : String)
  | authorsMissing
  | personNameEmpty
  | missingTitle
  | missingUpdated
  | dateUnparseable (date : String)
  | dateZero (date : String)
  | srcContentNotEmpty
  | badMime (typ : String)
  | valueXMLNotEmpty (typ : String)
  | valueNotEmptyXhtml
  | needSummarySrc
  | needSummaryBase64
  deriving DecidableEq

/-- The message prefix an `Entry.Verify` error is wrapped with:
`entry:`, `entry: author:`, `entry: updated:` or `entry: published:`. -/
inductive ETag where
  | base
  | author
  | updated
  | published
  deriving DecidableEq

/-- An element of an entry-level `VerificationError.Errors` list. -/
abbrev EItem := ETag × Err

/-- The message prefix a feed-level error is wrapped with: `feed:`,
`feed: author:`, `feed: logo:`, `feed: icon:` or `feed: updated:`. -/
inductive FTag where
  | base
  | author
  | logo
  | icon
  | updated
  deriving DecidableEq

/-- An element of `Feed.Verify`'s `VerificationError.Errors` list: either a
feed-level error, or the block `errors for entry [...]` wrapping one
failing entry's own error list. -/
inductive FItem where
  | feed (tag : FTag) (e : Err)
  | entryBlock (ent : Entry) (errs : List EItem)
  deriving DecidableEq

/-- `checkURI` (verify.go:160-168). -/
def checkURI (P : Parsers) (uri : String) : Option Err :=
  if uri = "" then none
  else if P.uriOK uri then none
  else some (.badURI uri)

/-- `checkEmail` (verify.go:150-158). -/
def checkEmail (P : Parsers) (email : String) : Option Err :=
  if email = "" then none
  else if P.emailOK email then none
  else some (.badEmail email)

/-- `checkID` (verify.go:170-175). -/
def checkID (P : Parsers) (id : ID) : Option Err :=
  if id.Value = "" then some .idEmpty else checkURI P id.Value

/-- `checkDate` (verify.go:177-186). -/
def checkDate (P : Parsers) (date : String) : Option Err :=
  if P.dateParses date then
    if P.dateIsZero date then some (.dateZero date) else none
  else some (.dateUnparseable date)

/-- `checkPerson` (verify.go:137-148). -/
def checkPerson (P : Parsers) : Option Person → Option Err
  | none => none
  | some p =>
    if p.Name = "" then some .personNameEmpty
    else
      match checkEmail P p.Email with
      | some er => some er
      | none => checkURI P p.URI

/-- `f.Author != nil && f.Author.Name != ""` (verify.go:118). -/
def hasFeedAuthor (f : Feed) : Bool :=
  match f.Author with
  | none => false
  | some p => p.Name != ""

/-- The per-entry author test of the loop in `checkAuthorsExist`
(verify.go:124-128): the entry author is present with a non-empty name. -/
def entryHasAuthor (e : Entry) : Bool :=
  match e.Author with
  | none => false
  | some p => p.Name != ""

/-- `checkAuthorsExist` (verify.go:117-135). -/
def checkAuthorsExist (f : Feed) : Option Err :=
  if hasFeedAuthor f then none
  else if f.Entries = [] then some .authorsMissing
  else if f.Entries.all entryHasAuthor then none
  else some .authorsMissing

/-- The `switch c.Type` statement of `checkContent` (verify.go:205-219). -/
def contentSwitch (c : Content) : Option Err :=
  if c.Typ = "" ∨ c.Typ = "text" ∨ c.Typ = "html" then
    if c.ValueXML ≠ "" then some (.valueXMLNotEmpty c.Typ) else none
  else if c.Typ = "xhtml" then
    if c.Value ≠ "" then some .valueNotEmptyXhtml else none
  else if goContainsChar c.Typ '/' then none
  else some (.badMime c.Typ)

/-- `checkContent` (verify.go:188-221): the `src` block, whose failures
return early, then the type switch. -/
def checkContent (P : Parsers) : Option Content → Option Err
  | none => none
  | some c =>
    if c.Source = "" then contentSwitch c
    else
      match checkURI P c.Source with
      | some er => some er
      | none =>
        if c.Value ≠ "" ∨ c.ValueXML ≠ "" then some .srcContentNotEmpty
        else if c.Typ ≠ "" ∧ ¬goContainsChar c.Typ '/' then some (.badMime c.Typ)
        else contentSwitch c

/-- `e.Title == nil || e.Title.Value == ""` (verify.go:49,85). -/
def titleMissing : Option TextConstruct → Bool
  | none => true
  | some t => t.Value == ""

/-- `e.Summary == nil || e.Summary.Value == ""` (verify.go:102,106). -/
def noSummary : Option Content → Bool
  | none => true
  | some s => s.Value == ""

/-- The summary-required block of `Entry.Verify` (verify.go:100-110). -/
def summaryErrors (e : Entry) : List Err :=
  match e.Content with
  | none => []
  | some c =>
    if c.Source ≠ "" then
      if noSummary e.Summary then [.needSummarySrc] else []
    else if c.base64Encoded then
      if noSummary e.Summary then [.needSummaryBase64] else []
    else []

/-- Wrap one optional entry-level error as a list item. -/
def optE (tag : ETag) : Option Err → List EItem
  | none => []
  | some er => [(tag, er)]

/-- The `errors` list built by `Entry.Verify` (verify.go:74-110), in
program order. -/
def entryErrors (P : Parsers) (e : Entry) : List EItem :=
  optE .base (checkID P e.ID)
    ++ optE .base (checkContent P e.Content)
    ++ optE .author (checkPerson P e.Author)
    ++ (if titleMissing e.Title then [(.base, .missingTitle)] else [])
    ++ (match e.Updated with
        | none => [(.base, .missingUpdated)]
        | some d => optE .updated (checkDate P d.Value))
    ++ (match e.Published with
        | none => []
        | some d => optE .published (checkDate P d.Value))
    ++ (summaryErrors e).map (fun er => (.base, er))

/-- `Entry.Verify` (verify.go:74-115): `nil` when the collected list is
empty, otherwise the `VerificationError` holding the whole list. -/
def Entry.Verify (P : Parsers) (e : Entry) : Option (List EItem) :=
  if entryErrors P e = [] then none else some (entryErrors P e)

/-- Wrap one optional feed-level error as a list item. -/
def optF (tag : FTag) : Option Err → List FItem
  | none => []
  | some er => [.feed tag er]

/-- The `errors` list built by `Feed.Verify` (verify.go:28-63), in program
order: the seven feed-level checks, then one wrapped block per failing
entry. -/
def feedErrors (P : Parsers) (f : Feed) : List FItem :=
  optF .base (checkID P f.ID)
    ++ optF .base (checkAuthorsExist f)
    ++ optF .author (checkPerson P f.Author)
    ++ (match f.Logo with
        | none => []
        | some l => optF .logo (checkURI P l.Value))
    ++ (match f.Icon with
        | none => []
        | some i => optF .icon (checkURI P i.Value))
    ++ (if titleMissing f.Title then [.feed .base .missingTitle] else [])
    ++ (match f.Updated with
        | none => [.feed .base .missingUpdated]
        | some d => optF .updated (checkDate P d.Value))
    ++ f.Entries.filterMap (fun e =>
        match e.Verify P with
        | none => none
        | some errs => some (.entryBlock e errs))

/-- `Feed.Verify` (verify.go:28-68): `nil` when the collected list is
empty, otherwise the `VerificationError` holding the whole list. -/
def Feed.Verify (P : Parsers) (f : Feed) : Option (List FItem) :=
  if feedErrors P f = [] then none else some (feedErrors P f)

/-- State-passing embedding of a `f.Verify()` call: the Go method only
reads through its receiver pointer — its body contains no assignment to
the feed, its entries or any embedded record — so the receiver state
passes through unchanged next to the returned error value. -/
def Feed.VerifySt (P : Parsers) (f : Feed) : Option (List FItem) × Feed :=
  (f.Verify P, f)

/-- A parser oracle under which every string URI-parses, every email
parses and every date parses to a non-zero time; used to instantiate
theorems at concrete inputs. -/
def allOKParsers : Parsers :=
  { uriOK := fun _ => true, emailOK := fun _ => true,
    dateParses := fun _ => true, dateIsZero := fun _ => false }

/-- The two summary-rule error productions of `Entry.Verify`. -/
def isSummaryErr : Err → Bool
  | .needSummarySrc => true
  | .needSummaryBase64 => true
  | _ => false

lemma optE_eq_nil (tag : ETag) (o : Option Err) : optE tag o = [] ↔ o = none := by
  cases o <;> simp [optE]

lemma optF_eq_nil (tag : FTag) (o : Option Err) : optF tag o = [] ↔ o = none := by
  cases o <;> simp [optF]

lemma mem_optE (x : EItem) (tag : ETag) (o : Option Err) :
    x ∈ optE tag o ↔ ∃ er, o = some er ∧ x = (tag, er) := by
  cases o <;> simp [optE]

lemma mem_optF (x : FItem) (tag : FTag) (o : Option Err) :
    x ∈ optF tag o ↔ ∃ er, o = some er ∧ x = .feed tag er := by
  cases o <;> simp [optF]

lemma checkURI_eq_none (P : Parsers) (u : String) :
    checkURI P u = none ↔ u = "" ∨ P.uriOK u = true := by
  unfold checkURI; split_ifs <;> simp_all

lemma checkURI_shape {P : Parsers} {u : String} {er : Err}
    (h : checkURI P u = some er) : ∃ x, er = .badURI x := by
  unfold checkURI at h; split_ifs at h <;> simp_all
  exact ⟨u, h.symm⟩

lemma checkEmail_shape {P : Parsers} {u : String} {er : Err}
    (h : checkEmail P u = some er) : ∃ x, er = .badEmail x := by
  unfold checkEmail at h; split_ifs at h <;> simp_all
  exact ⟨u, h.symm⟩

lemma checkID_shape {P : Parsers} {i : ID} {er : Err}
    (h : checkID P i = some er) : er = .idEmpty ∨ ∃ x, er = .badURI x := by
  unfold checkID at h
  split_ifs at h with h1
  · exact Or.inl (Option.some.inj h).symm
  · exact Or.inr (checkURI_shape h)

lemma checkDate_shape {P : Parsers} {d : String} {er : Err}
    (h : checkDate P d = some er) :
    (∃ x, er = .dateUnparseable x) ∨ ∃ x, er = .dateZero x := by
  unfold checkDate at h
  split_ifs at h with h1 h2
  · exact Or.inr ⟨d, (Option.some.inj h).symm⟩
  · exact Or.inl ⟨d, (Option.some.inj h).symm⟩

lemma checkPerson_shape {P : Parsers} {po : Option Person} {er : Err}
    (h : checkPerson P po = some er) :
    er = .personNameEmpty ∨ (∃ x, er = .badEmail x) ∨ ∃ x, er = .badURI x := by
  match po with
  | none => simp [checkPerson] at h
  | some p =>
    simp only [checkPerson] at h
    split_ifs at h with h1
    · exact Or.inl (Option.some.inj h).symm
    · cases he : checkEmail P p.Email with
      | some e2 =>
        rw [he] at h
        exact Or.inr (Or.inl (Option.some.inj h ▸ checkEmail_shape he))
      | none =>
        rw [he] at h
        exact Or.inr (Or.inr (checkURI_shape h))

lemma checkAuthorsExist_shape {f : Feed} {er : Err}
    (h : checkAuthorsExist f = some er) : er = .authorsMissing := by
  unfold checkAuthorsExist at h; split_ifs at h <;> simp_all

lemma contentSwitch_shape {c : Content} {er : Err}
    (h : contentSwitch c = some er) :
    (∃ x, er = .valueXMLNotEmpty x) ∨ er = .valueNotEmptyXhtml ∨
      ∃ x, er = .badMime x := by
  unfold contentSwitch at h
  split_ifs at h with h1 h2 h3 h4 h5
  · exact Or.inl ⟨c.Typ, (Option.some.inj h).symm⟩
  · exact Or.inr (Or.inl (Option.some.inj h).symm)
  · exact Or.inr (Or.inr ⟨c.Typ, (Option.some.inj h).symm⟩)

lemma checkContent_shape {P : Parsers} {co : Option Content} {er : Err}
    (h : checkContent P co = some er) :
    (∃ x, er = .badURI x) ∨ er = .srcContentNotEmpty ∨
      (∃ x, er = .badMime x) ∨ (∃ x, er = .valueXMLNotEmpty x) ∨
      er = .valueNotEmptyXhtml := by
  match co with
  | none => simp [checkContent] at h
  | some c =>
    simp only [checkContent] at h
    by_cases h1 : c.Source = ""
    · rw [if_pos h1] at h
      rcases contentSwitch_shape h with h' | h' | h'
      · exact Or.inr (Or.inr (Or.inr (Or.inl h')))
      · exact Or.inr (Or.inr (Or.inr (Or.inr h')))
      · exact Or.inr (Or.inr (Or.inl h'))
    · rw [if_neg h1] at h
      cases hu : checkURI P c.Source with
      | some e2 =>
        rw [hu] at h
        exact Or.inl (Option.some.inj h ▸ checkURI_shape hu)
      | none =>
        rw [hu] at h
        split_ifs at h with h2 h3
        · exact Or.inr (Or.inl (Option.some.inj h).symm)
        · exact Or.inr (Or.inr (Or.inl ⟨c.Typ, (Option.some.inj h).symm⟩))
        · rcases contentSwitch_shape h with h' | h' | h'
          · exact Or.inr (Or.inr (Or.inr (Or.inl h')))
          · exact Or.inr (Or.inr (Or.inr (Or.inr h')))
          · exact Or.inr (Or.inr (Or.inl h'))

lemma entryWrap_eq_none {P : Parsers} {e : Entry} :
    (match e.Verify P with
     | none => none
     | some errs => some (FItem.entryBlock e errs)) = none ↔
      e.Verify P = none := by
  cases h : e.Verify P <;> simp

lemma entryWrap_eq_some {P : Parsers} {e : Entry} {x : FItem} :
    (match e.Verify P with
     | none => none
     | some errs => some (FItem.entryBlock e errs)) = some x ↔
      ∃ errs, e.Verify P = some errs ∧ x = .entryBlock e errs := by
  cases h : e.Verify P <;> simp [eq_comm]

/-- Membership characterization for the feed-level error list: an item is
reported by `Feed.Verify` exactly when one of the eight production sites
yields it. -/
lemma mem_feedErrors (P : Parsers) (f : Feed) (x : FItem) :
    x ∈ feedErrors P f ↔
      (∃ er, checkID P f.ID = some er ∧ x = .feed .base er) ∨
      (∃ er, checkAuthorsExist f = some er ∧ x = .feed .base er) ∨
      (∃ er, checkPerson P f.Author = some er ∧ x = .feed .author er) ∨
      (∃ l er, f.Logo = some l ∧ checkURI P l.Value = some er ∧
        x = .feed .logo er) ∨
      (∃ i er, f.Icon = some i ∧ checkURI P i.Value = some er ∧
        x = .feed .icon er) ∨
      (titleMissing f.Title = true ∧ x = .feed .base .missingTitle) ∨
      (f.Updated = none ∧ x = .feed .base .missingUpdated) ∨
      (∃ d er, f.Updated = some d ∧ checkDate P d.Value = some er ∧
        x = .feed .updated er) ∨
      (∃ e errs, e ∈ f.Entries ∧ e.Verify P = some errs ∧
        x = .entryBlock e errs) := by
  unfold feedErrors
  cases hl : f.Logo <;> cases hi : f.Icon <;> cases hu : f.Updated <;>
    by_cases ht : titleMissing f.Title <;>
      simp [List.mem_append, mem_optF, List.mem_filterMap, entryWrap_eq_some,
        ht, and_assoc]

/-- Membership characterization for the entry-level error list: an item is
reported by `Entry.Verify` exactly when one of its production sites
yields it. -/
lemma mem_entryErrors (P : Parsers) (e : Entry) (x : EItem) :
    x ∈ entryErrors P e ↔
      (∃ er, checkID P e.ID = some er ∧ x = (.base, er)) ∨
      (∃ er, checkContent P e.Content = some er ∧ x = (.base, er)) ∨
      (∃ er, checkPerson P e.Author = some er ∧ x = (.author, er)) ∨
      (titleMissing e.Title = true ∧ x = (.base, .missingTitle)) ∨
      (e.Updated = none ∧ x = (.base, .missingUpdated)) ∨
      (∃ d er, e.Updated = some d ∧ checkDate P d.Value = some er ∧
        x = (.updated, er)) ∨
      (∃ d er, e.Published = some d ∧ checkDate P d.Value = some er ∧
        x = (.published, er)) ∨
      (∃ er, er ∈ summaryErrors e ∧ x = (.base, er)) := by
  unfold entryErrors
  cases hu : e.Updated <;> cases hp : e.Published <;>
    by_cases ht : titleMissing e.Title <;>
      simp [List.mem_append, mem_optE, List.mem_map, ht, and_assoc, eq_comm]

/-- C6: `NewContent` produces no content exactly when both the source and
the payload are empty, for every type token; on every other input it
produces some `Content` record. -/
theorem NewContent_none_iff (t s v : String) :
    NewContent t s v = none ↔ s = "" ∧ v = "" := by
  unfold NewContent
  split_ifs with h1 h2 h3 <;> simp_all

/-- C1: for a non-empty payload, `NewContent` classifies the type token
into exactly one of three buckets in priority order: the markup bucket
(`isXMLMediaType`: exactly `xhtml`, one of the five registered XML
subtypes, or a case-insensitive `+xml`/`/xml` suffix) stores the payload
verbatim in the raw-markup slot `ValueXML`; otherwise the plain-text
bucket (`isTextualType`: empty, `text`, `html`, or a case-insensitive
`text/` prefix) stores it unchanged in the plain-text slot `Value`;
otherwise the payload is stored standard-base64-encoded in `Value` with
the `base64Encoded` flag set. In particular `text/xml` lands in the
markup bucket even though it also starts with `text/`. -/
theorem NewContent_classification (t s v : String) (hv : v ≠ "") :
    (isXMLMediaType t = true →
      NewContent t s v =
        some { Typ := t, Source := s, Value := "", ValueXML := v,
               base64Encoded := false }) ∧
    (isXMLMediaType t = false → isTextualType t = true →
      NewContent t s v =
        some { Typ := t, Source := s, Value := v, ValueXML := "",
               base64Encoded := false }) ∧
    (isXMLMediaType t = false → isTextualType t = false →
      NewContent t s v =
        some { Typ := t, Source := s, Value := base64Encode v,
               ValueXML := "", base64Encoded := true }) ∧
    isXMLMediaType "text/xml" = true ∧
    goHasPrefix (goToLower "text/xml") "text/" = true := by
  refine ⟨fun hx => ?_, fun hx ht => ?_, fun hx ht => ?_, by decide, by decide⟩
  · simp [NewContent, hv, hx]
  · simp [NewContent, hv, hx, ht]
  · simp [NewContent, hv, hx, ht]

/-- Witness for C1 at the token `text/xml` of the claim's "in particular"
clause, with a non-empty payload. -/
theorem NewContent_classification_witness :
    ("<p>x</p>" : String) ≠ "" ∧
    ((isXMLMediaType "text/xml" = true →
      NewContent "text/xml" "" "<p>x</p>" =
        some { Typ := "text/xml", Source := "", Value := "",
               ValueXML := "<p>x</p>", base64Encoded := false }) ∧
    (isXMLMediaType "text/xml" = false → isTextualType "text/xml" = true →
      NewContent "text/xml" "" "<p>x</p>" =
        some { Typ := "text/xml", Source := "", Value := "<p>x</p>",
               ValueXML := "", base64Encoded := false }) ∧
    (isXMLMediaType "text/xml" = false → isTextualType "text/xml" = false →
      NewContent "text/xml" "" "<p>x</p>" =
        some { Typ := "text/xml", Source := "",
               Value := base64Encode "<p>x</p>", ValueXML := "",
               base64Encoded := true }) ∧
    isXMLMediaType "text/xml" = true ∧
    goHasPrefix (goToLower "text/xml") "text/" = true) :=
  ⟨by decide, NewContent_classification "text/xml" "" "<p>x</p>" (by decide)⟩

/-- C7 counterexample: two `GoTime`s denoting the same absolute instant
(2000-02-26T08:30:15Z), one in UTC and one in a UTC-5 zone. `NewEntryID`
formats the second one's local wall clock, not the UTC reading of the
instant, so the claim's "formatted digits are the UTC reading of the
instant ... supplied in any time zone" fails on the UTC-5 value. -/
theorem NewEntryID_nonUTC_counterexample :
    absSeconds { year := 2000, month := 2, day := 26, hour := 8,
                 minute := 30, second := 15, offsetSeconds := 0 } =
      absSeconds { year := 2000, month := 2, day := 26, hour := 3,
                   minute := 30, second := 15, offsetSeconds := -18000 } ∧
    NewEntryID { Value := "tag:example.org,2000-02-26:blog" }
        { year := 2000, month := 2, day := 26, hour := 3, minute := 30,
          second := 15, offsetSeconds := -18000 } ≠
      { Value := "tag:example.org,2000-02-26:blog.post-20000226083015" } ∧
    NewEntryID { Value := "tag:example.org,2000-02-26:blog" }
        { year := 2000, month := 2, day := 26, hour := 3, minute := 30,
          second := 15, offsetSeconds := -18000 } =
      { Value := "tag:example.org,2000-02-26:blog.post-20000226033015" } := by
  refine ⟨by decide, by decide, by decide⟩

/-- C7 (amended): `NewEntryID` returns the feed identifier, `.post-`, and
the creation time's wall-clock reading in its own location formatted as
YYYYMMDDhhmmss with no separators; for an instant supplied in UTC
(offset zero) this is the UTC reading, as in the claim's example. -/
theorem NewEntryID_spec (fid : ID) (t : GoTime) :
    NewEntryID fid t =
      { Value := fid.Value ++ ".post-" ++ (pad4 t.year ++ pad2 t.month
          ++ pad2 t.day ++ pad2 t.hour ++ pad2 t.minute ++ pad2 t.second) } ∧
    NewEntryID { Value := "tag:example.org,2000-02-26:blog" }
        { year := 2000, month := 2, day := 26, hour := 8, minute := 30,
          second := 15, offsetSeconds := 0 } =
      { Value := "tag:example.org,2000-02-26:blog.post-20000226083015" } :=
  ⟨rfl, by decide⟩

/-- C8: the Verify call is read-only, side-effect-free and idempotent: in
the state-passing embedding `Feed.VerifySt` the feed comes back exactly
unchanged (entries and embedded records included, by equality of the
whole `Feed` value), and running Verify again on the returned feed
produces an equal result. -/
theorem Verify_readonly_idempotent (P : Parsers) (f : Feed) :
    (f.VerifySt P).2 = f ∧
    ((f.VerifySt P).2.VerifySt P).1 = (f.VerifySt P).1 :=
  ⟨rfl, rfl⟩

/-- C10: every `NewEntry`-built entry has Summary and Content classified
with the fixed token `html` and empty source — hence plain-text, never
source-referenced nor base64-encoded — with absent fields (rather than
empty records) for empty payloads, and such an entry never yields a
summary-required error. -/
theorem NewEntry_summary_content (id : ID) (title permalink : String)
    (author : Option Person) (updated published : GoTime)
    (categories : List String) (summary content : String) :
    (NewEntry id title permalink author updated published categories
        summary content).Summary =
      (if summary = "" then none
       else some { Typ := "html", Source := "", Value := summary,
                   ValueXML := "", base64Encoded := false }) ∧
    (NewEntry id title permalink author updated published categories
        summary content).Content =
      (if content = "" then none
       else some { Typ := "html", Source := "", Value := content,
                   ValueXML := "", base64Encoded := false }) ∧
    summaryErrors (NewEntry id title permalink author updated published
      categories summary content) = [] := by
  have hx : isXMLMediaType "html" = false := by decide
  have ht : isTextualType "html" = true := by decide
  refine ⟨?_, ?_, ?_⟩
  · simp [NewEntry, NewContent, hx, ht]
  · simp [NewEntry, NewContent, hx, ht]
  · rcases eq_or_ne content "" with hc | hc <;>
      simp [NewEntry, NewContent, summaryErrors, hx, ht, hc]

lemma contentSwitch_eq_none (c : Content) :
    contentSwitch c = none ↔
      ((c.Typ = "" ∨ c.Typ = "text" ∨ c.Typ = "html") → c.ValueXML = "") ∧
      (c.Typ = "xhtml" → c.Value = "") ∧
      (¬(c.Typ = "" ∨ c.Typ = "text" ∨ c.Typ = "html" ∨ c.Typ = "xhtml") →
        goContainsChar c.Typ '/' = true) := by
  unfold contentSwitch
  by_cases e1 : c.Typ = "" <;> by_cases e2 : c.Typ = "text" <;>
    by_cases e3 : c.Typ = "html" <;> by_cases e4 : c.Typ = "xhtml" <;>
      split_ifs <;> simp_all

/-- C5: the content check accepts a record exactly when: with a source URI
set, the source URI-parses, both payload slots are empty and any type
token supplied alongside contains a slash; and, for the inline switch,
the raw-markup slot is empty for declared types ``, `text`, `html`, the
plain-text slot is empty for `xhtml`, and any non-reserved token contains
a slash. -/
theorem checkContent_enforces (P : Parsers) (c : Content) :
    checkContent P (some c) = none ↔
      ((c.Source ≠ "" → P.uriOK c.Source = true ∧ c.Value = "" ∧
        c.ValueXML = "" ∧ (c.Typ = "" ∨ goContainsChar c.Typ '/' = true)) ∧
       ((c.Typ = "" ∨ c.Typ = "text" ∨ c.Typ = "html") → c.ValueXML = "") ∧
       (c.Typ = "xhtml" → c.Value = "") ∧
       (¬(c.Typ = "" ∨ c.Typ = "text" ∨ c.Typ = "html" ∨ c.Typ = "xhtml") →
        goContainsChar c.Typ '/' = true)) := by
  simp only [checkContent]
  by_cases hs : c.Source = ""
  · rw [if_pos hs, contentSwitch_eq_none]
    simp [hs]
  · rw [if_neg hs]
    cases hu : checkURI P c.Source with
    | some er =>
      simp only [hu]
      constructor
      · intro h; exact absurd h (by simp)
      · rintro ⟨h1, -⟩
        have := (checkURI_eq_none P c.Source).mpr (Or.inr (h1 hs).1)
        rw [hu] at this; exact absurd this (by simp)
    | none =>
      have huri : P.uriOK c.Source = true := by
        rcases (checkURI_eq_none P c.Source).mp hu with h | h
        · exact absurd h hs
        · exact h
      simp only [hu]
      split_ifs with h2 h3
      · constructor
        · intro h; exact absurd h (by simp)
        · rintro ⟨h1, -⟩
          rcases h2 with h2 | h2
          · exact absurd (h1 hs).2.1 h2
          · exact absurd (h1 hs).2.2.1 h2
      · constructor
        · intro h; exact absurd h (by simp)
        · rintro ⟨h1, -⟩
          rcases (h1 hs).2.2.2 with h | h
          · exact absurd h h3.1
          · exact absurd h h3.2
      · push_neg at h2 h3
        rw [contentSwitch_eq_none]
        constructor
        · rintro ⟨hα, hβ, hγ⟩
          refine ⟨fun _ => ⟨huri, h2.1, h2.2, ?_⟩, hα, hβ, hγ⟩
          by_cases hty : c.Typ = ""
          · exact Or.inl hty
          · exact Or.inr (h3 hty)
        · rintro ⟨-, hα, hβ, hγ⟩
          exact ⟨hα, hβ, hγ⟩

/-- C2: `Feed.Verify` aggregates rather than short-circuits: it is `nil`
exactly when every feed-level check (id, author-existence, author
well-formedness, logo, icon, title, updated) passes and every entry's own
`Verify` is `nil`; and every failing entry contributes its full error
list, wrapped and tagged with that entry, to the aggregate. -/
theorem Feed_Verify_aggregates (P : Parsers) (f : Feed) :
    (f.Verify P = none ↔ feedErrors P f = []) ∧
    (feedErrors P f = [] ↔
      (checkID P f.ID = none ∧
       checkAuthorsExist f = none ∧
       checkPerson P f.Author = none ∧
       (∀ l, f.Logo = some l → checkURI P l.Value = none) ∧
       (∀ i, f.Icon = some i → checkURI P i.Value = none) ∧
       titleMissing f.Title = false ∧
       (∃ d, f.Updated = some d ∧ checkDate P d.Value = none) ∧
       (∀ e ∈ f.Entries, e.Verify P = none))) ∧
    (∀ e ∈ f.Entries, ∀ errs, e.Verify P = some errs →
      FItem.entryBlock e errs ∈ feedErrors P f) := by
  refine ⟨?_, ?_, ?_⟩
  · unfold Feed.Verify
    split_ifs with h <;> simp [h]
  · unfold feedErrors
    cases hl : f.Logo <;> cases hi : f.Icon <;> cases hu : f.Updated <;>
      by_cases ht : titleMissing f.Title <;>
        simp [List.append_eq_nil, optF_eq_nil, List.filterMap_eq_nil_iff,
          entryWrap_eq_none, ht]
  · intro e he errs hv
    exact (mem_feedErrors P f _).mpr
      (Or.inr (Or.inr (Or.inr (Or.inr (Or.inr (Or.inr (Or.inr (Or.inr
        ⟨e, errs, he, hv, rfl⟩))))))))

lemma authorsMissing_mem_iff (P : Parsers) (f : Feed) :
    FItem.feed FTag.base Err.authorsMissing ∈ feedErrors P f ↔
      checkAuthorsExist f = some .authorsMissing := by
  rw [mem_feedErrors]
  constructor
  · rintro (⟨er, hch, heq⟩ | ⟨er, hch, heq⟩ | ⟨er, hch, heq⟩ |
      ⟨l, er, hl, hch, heq⟩ | ⟨i, er, hi, hch, heq⟩ | ⟨hm, heq⟩ | ⟨hm, heq⟩ |
      ⟨d, er, hd, hch, heq⟩ | ⟨e, errs, hm, hv, heq⟩)
    · injection heq with h1 h2
      subst h2
      rcases checkID_shape hch with h | ⟨x, h⟩ <;> simp at h
    · injection heq with h1 h2
      subst h2
      exact hch
    · injection heq with h1 h2
      simp at h1
    · injection heq with h1 h2
      simp at h1
    · injection heq with h1 h2
      simp at h1
    · injection heq with h1 h2
      simp at h2
    · injection heq with h1 h2
      simp at h2
    · injection heq with h1 h2
      simp at h1
    · injection heq
  · intro h
    exact Or.inr (Or.inl ⟨.authorsMissing, h, rfl⟩)

lemma checkAuthorsExist_eq_missing (f : Feed) :
    checkAuthorsExist f = some .authorsMissing ↔
      hasFeedAuthor f = false ∧
        (f.Entries = [] ∨ ∃ e ∈ f.Entries, entryHasAuthor e = false) := by
  unfold checkAuthorsExist
  split_ifs with h1 h2 h3 <;>
    simp_all [List.all_eq_true, List.all_eq_false]

/-- C3 counterexample: the all-default feed has no author and zero
entries, so "every one of its entries has an author" holds vacuously, yet
`Feed.Verify` does report the author-existence violation (verify.go:120
treats an entry-less feed without a feed author as a failure). -/
theorem authorsExist_vacuous_counterexample :
    (({} : Feed).Author = none) ∧
    (∀ e ∈ ({} : Feed).Entries, entryHasAuthor e = true) ∧
    FItem.feed FTag.base Err.authorsMissing ∈ feedErrors allOKParsers {} := by
  refine ⟨rfl, by simp, by decide⟩

/-- C3 (amended): `Feed.Verify` reports the author-existence violation iff
the feed has no author (nil or empty name) and additionally either the
feed has no entries at all, or some entry lacks an author with a
non-empty name. -/
theorem authorsExist_rule (P : Parsers) (f : Feed) :
    FItem.feed FTag.base Err.authorsMissing ∈ feedErrors P f ↔
      (hasFeedAuthor f = false ∧
        (f.Entries = [] ∨ ∃ e ∈ f.Entries, entryHasAuthor e = false)) := by
  rw [authorsMissing_mem_iff, checkAuthorsExist_eq_missing]

lemma summaryErrors_all_summary (e : Entry) :
    ∀ er ∈ summaryErrors e, isSummaryErr er = true := by
  intro er hmem
  unfold summaryErrors at hmem
  cases hc : e.Content with
  | none => rw [hc] at hmem; simp at hmem
  | some c =>
    rw [hc] at hmem
    by_cases hs : c.Source ≠ "" <;> by_cases hb : c.base64Encoded = true <;>
      by_cases hn : noSummary e.Summary = true <;>
        simp [hs, hb, hn] at hmem <;> simp [hmem, isSummaryErr]

lemma summaryErrors_ne_nil (e : Entry) (c : Content) (hc : e.Content = some c)
    (h : c.Source ≠ "" ∨ c.base64Encoded = true) :
    summaryErrors e ≠ [] ↔ noSummary e.Summary = true := by
  unfold summaryErrors
  rw [hc]
  by_cases hns : noSummary e.Summary = true <;>
    rcases h with h | h
  · simp [if_pos h, hns]
  · by_cases hsrc : c.Source ≠ "" <;> simp [hsrc, h, hns]
  · simp [if_pos h, hns]
  · by_cases hsrc : c.Source ≠ "" <;> simp [hsrc, h, hns]

/-- C4: for an entry whose content has a source reference set or is
base64-encoded, `Entry.Verify` reports a missing-summary error if and
only if the summary is absent or has an empty plain-text value; a
non-empty summary makes the error disappear. -/
theorem Verify_summary_required (P : Parsers) (e : Entry) (c : Content)
    (hc : e.Content = some c) (h : c.Source ≠ "" ∨ c.base64Encoded = true) :
    (∃ it ∈ entryErrors P e, isSummaryErr it.2 = true) ↔
      noSummary e.Summary = true := by
  rw [← summaryErrors_ne_nil e c hc h]
  constructor
  · rintro ⟨it, hmem, hsum⟩
    rw [mem_entryErrors] at hmem
    rcases hmem with ⟨er, hch, rfl⟩ | ⟨er, hch, rfl⟩ | ⟨er, hch, rfl⟩ |
      ⟨hm, rfl⟩ | ⟨hm, rfl⟩ | ⟨d, er, hd, hch, rfl⟩ | ⟨d, er, hd, hch, rfl⟩ |
      ⟨er, hmem2, rfl⟩
    · rcases checkID_shape hch with h' | ⟨x, h'⟩ <;> subst h' <;>
        simp [isSummaryErr] at hsum
    · rcases checkContent_shape hch with ⟨x, h'⟩ | h' | ⟨x, h'⟩ | ⟨x, h'⟩ | h' <;>
        subst h' <;> simp [isSummaryErr] at hsum
    · rcases checkPerson_shape hch with h' | ⟨x, h'⟩ | ⟨x, h'⟩ <;> subst h' <;>
        simp [isSummaryErr] at hsum
    · simp [isSummaryErr] at hsum
    · simp [isSummaryErr] at hsum
    · rcases checkDate_shape hch with ⟨x, h'⟩ | ⟨x, h'⟩ <;> subst h' <;>
        simp [isSummaryErr] at hsum
    · rcases checkDate_shape hch with ⟨x, h'⟩ | ⟨x, h'⟩ <;> subst h' <;>
        simp [isSummaryErr] at hsum
    · exact List.ne_nil_of_mem hmem2
  · intro hne
    obtain ⟨er, hmem⟩ := List.exists_mem_of_ne_nil _ hne
    refine ⟨(.base, er), ?_, summaryErrors_all_summary e er hmem⟩
    exact (mem_entryErrors P e _).mpr
      (Or.inr (Or.inr (Or.inr (Or.inr (Or.inr (Or.inr (Or.inr
        ⟨er, hmem, rfl⟩)))))))

/-- The concrete entry used to witness C4: base64-encoded content (as
produced by `NewContent "image/png"`) and no summary. -/
def entryC4 : Entry :=
  { Content := some { Typ := "image/png", Source := "", Value := "eA==",
                      ValueXML := "", base64Encoded := true } }

/-- The content record of `entryC4`. -/
def contentC4 : Content :=
  { Typ := "image/png", Source := "", Value := "eA==", ValueXML := "",
    base64Encoded := true }

/-- Witness for C4 at `entryC4`. -/
theorem Verify_summary_required_witness :
    (entryC4.Content = some contentC4 ∧
      (contentC4.Source ≠ "" ∨ contentC4.base64Encoded = true)) ∧
    ((∃ it ∈ entryErrors allOKParsers entryC4, isSummaryErr it.2 = true) ↔
      noSummary entryC4.Summary = true) :=
  ⟨⟨rfl, Or.inr rfl⟩,
    Verify_summary_required allOKParsers entryC4 contentC4 rfl (Or.inr rfl)⟩

/-- C9 counterexample: a feed whose author record is present but has an
empty name and which has zero entries. Vacuously every entry has an
author with a non-empty name, so the claim's rule would not flag it, yet
`Feed.Verify` reports the author-existence violation. -/
theorem emptyName_vacuous_counterexample :
    (({ Author := some { Name := "" } } : Feed).Author =
      some { Name := "", Email := "", URI := "" }) ∧
    (∀ e ∈ ({ Author := some { Name := "" } } : Feed).Entries,
      ∃ q, e.Author = some q ∧ q.Name ≠ "") ∧
    FItem.feed FTag.base Err.authorsMissing ∈
      feedErrors allOKParsers { Author := some { Name := "" } } := by
  refine ⟨rfl, by simp, by decide⟩

/-- C9 (amended): a feed-level author with an empty name does not count as
a feed author: the author-existence violation is reported iff the feed
has no entries or some entry lacks an author with a non-empty name; and
the empty-name author is additionally reported as a malformed person. -/
theorem emptyName_author_rule (P : Parsers) (f : Feed) (p : Person)
    (ha : f.Author = some p) (hn : p.Name = "") :
    (FItem.feed FTag.base Err.authorsMissing ∈ feedErrors P f ↔
      (f.Entries = [] ∨ ∃ e ∈ f.Entries, entryHasAuthor e = false)) ∧
    FItem.feed FTag.author Err.personNameEmpty ∈ feedErrors P f := by
  have hfa : hasFeedAuthor f = false := by
    unfold hasFeedAuthor
    rw [ha]
    simp [hn]
  constructor
  · rw [authorsMissing_mem_iff, checkAuthorsExist_eq_missing]
    simp [hfa]
  · refine (mem_feedErrors P f _).mpr
      (Or.inr (Or.inr (Or.inl ⟨.personNameEmpty, ?_, rfl⟩)))
    rw [ha]
    simp [checkPerson, hn]

/-- The concrete feed used to witness C9: an empty-name feed author and
one author-less entry. -/
def feedC9 : Feed := { Author := some { Name := "" }, Entries := [{}] }

/-- Witness for C9 at `feedC9`. -/
theorem emptyName_author_rule_witness :
    (feedC9.Author = some { Name := "", Email := "", URI := "" } ∧
      ({ Name := "", Email := "", URI := "" } : Person).Name = "") ∧
    ((FItem.feed FTag.base Err.authorsMissing ∈
        feedErrors allOKParsers feedC9 ↔
      (feedC9.Entries = [] ∨ ∃ e ∈ feedC9.Entries,
        entryHasAuthor e = false)) ∧
    FItem.feed FTag.author Err.personNameEmpty ∈
      feedErrors allOKParsers feedC9) :=
  ⟨⟨rfl, rfl⟩, emptyName_author_rule allOKParsers feedC9 _ rfl rfl⟩
